import Mathlib

/-
  Verification development for the video-trimmer source (src/src/index.js).

  The clip-timeline data model, the trim pipeline, the upload strategies and
  the duration-classification utility are embedded as executable Lean
  definitions; times are modelled as rationals, JavaScript NaN as `none` in
  an `Option`, and external effects (codec runtime, virtual filesystem,
  network) as explicit oracle parameters so that every control-flow branch
  of the source is represented.
-/

namespace VideoTrimmer

/-! ## ClipTimeline data model

  Embeds the `this.sliders` array: each entry is `{ startTime, endTime }`
  in seconds (`videoDetails`, `addNewSlider`, `removeSlider`,
  `makeGrabberDraggable.handleMouseMove`). -/

structure Slider where
  startTime : ℚ
  endTime : ℚ
deriving DecidableEq, Repr

def sliderLen (s : Slider) : ℚ := s.endTime - s.startTime

/-- Embeds `videoDetails`: the initial timeline is the single full-span
    range `{ startTime: 0, endTime: video.duration }`. -/
def initSliders (duration : ℚ) : List Slider := [⟨0, duration⟩]

/-- Embeds the `forEach` scan in `addNewSlider` that keeps the first
    slider and replaces it whenever a strictly longer one is seen
    (ties therefore keep the earlier, lower-index slider). -/
def pickLongest (best : Slider) : List Slider → Slider
  | [] => best
  | s :: rest => pickLongest (if sliderLen best < sliderLen s then s else best) rest

/-- Embeds the new-slider computation in `addNewSlider`:
    `midTime = (start + end) / 2` and the new range is
    `[midTime - 0.25 * len, midTime + 0.25 * len]` (0.25 = 1/4). -/
def splitRange (longest : Slider) : Slider :=
  ⟨(longest.startTime + longest.endTime) / 2 - (1/4) * sliderLen longest,
   (longest.startTime + longest.endTime) / 2 + (1/4) * sliderLen longest⟩

/-- Embeds `addNewSlider`.  The second component records the user-facing
    reports (Toastify calls) the method makes: the source contains none —
    the empty-timeline guard is a bare `return;`.  On a non-empty timeline
    the scan starts from `this.sliders[0]` and runs over the whole array,
    and the split range is pushed onto the end. -/
def addNewSlider (sliders : List Slider) : List Slider × List String :=
  match sliders with
  | [] => ([], [])
  | s0 :: rest => ((s0 :: rest) ++ [splitRange (pickLongest s0 (s0 :: rest))], [])

/-- Embeds `removeSlider`, i.e. `this.sliders.filter((_, i) => index !== i)`:
    the recursion carries the running element index `i`. -/
def removeAux {α : Type} (index : Nat) : Nat → List α → List α
  | _, [] => []
  | i, a :: rest =>
    if i = index then removeAux index (i + 1) rest
    else a :: removeAux index (i + 1) rest

def removeSlider (sliders : List Slider) (index : Nat) : List Slider :=
  removeAux index 0 sliders

/-- Embeds `makeGrabberDraggable.handleMouseMove`.  The caller computes
    `newTime = (offsetX / rect.width) * video.duration` from the pointer
    position; the handler then either moves the start edge to
    `max(newTime, 0)` when `newTime < endTime`, or the end edge to
    `min(newTime, duration)` when `newTime > startTime`, and otherwise
    leaves the slider untouched.  An out-of-range index is a no-op (the
    source re-renders all grabbers on every change, so a handler never
    outlives its slider). -/
def setBoundary (duration : ℚ) (sliders : List Slider) (sliderIndex : Nat)
    (isStartGrabber : Bool) (newTime : ℚ) : List Slider :=
  match sliders.get? sliderIndex with
  | none => sliders
  | some s =>
    if isStartGrabber then
      if newTime < s.endTime then
        sliders.set sliderIndex ⟨max newTime 0, s.endTime⟩
      else sliders
    else
      if s.startTime < newTime then
        sliders.set sliderIndex ⟨s.startTime, min newTime duration⟩
      else sliders

/-- The timeline operations reachable from the editing phase. -/
inductive TimelineOp
  | addBySplit
  | remove (index : Nat)
  | setBoundary (index : Nat) (isStartGrabber : Bool) (proposedTime : ℚ)

def applyOp (duration : ℚ) (sliders : List Slider) : TimelineOp → List Slider
  | .addBySplit => (addNewSlider sliders).1
  | .remove i => removeSlider sliders i
  | .setBoundary i g t => setBoundary duration sliders i g t

def applyOps (duration : ℚ) (sliders : List Slider) (ops : List TimelineOp) : List Slider :=
  ops.foldl (applyOp duration) sliders

/-- The range invariant of the specification:
    `0 ≤ startTime < endTime ≤ mediaDuration`. -/
def SliderWF (duration : ℚ) (s : Slider) : Prop :=
  0 ≤ s.startTime ∧ s.startTime < s.endTime ∧ s.endTime ≤ duration

def TimelineWF (duration : ℚ) (sliders : List Slider) : Prop :=
  ∀ s ∈ sliders, SliderWF duration s

instance (duration : ℚ) (s : Slider) : Decidable (SliderWF duration s) := by
  unfold SliderWF; infer_instance

instance (duration : ℚ) (sliders : List Slider) : Decidable (TimelineWF duration sliders) := by
  unfold TimelineWF; infer_instance

/-! ## Trim pipeline (trimVideo)

  The codec runtime, the virtual filesystem and the per-clip transcode are
  external effects; they enter the model as boolean/oracle parameters that
  select which of the source error branches fires.  Artifacts are
  abstracted to the 1-based clip number that produced them (the source
  stores a name/url/file/duration record per clip). -/

/-- Embeds `parseInt` applied to a non-negative fractional number of
    seconds (the source calls `parseInt(element.startTime)` on clip
    bounds): the decimal rendering is truncated toward zero. -/
def jsTrunc (q : ℚ) : Int := if 0 ≤ q then ⌊q⌋ else ⌈q⌉

structure IntSlider where
  startTime : Int
  endTime : Int
deriving DecidableEq, Repr

/-- Embeds the `accurateSliders` map in `trimVideo`:
    `{ startTime: parseInt(s.startTime), endTime: parseInt(s.endTime) }`. -/
def accurateSliders (sliders : List Slider) : List IntSlider :=
  sliders.map (fun s => ⟨jsTrunc s.startTime, jsTrunc s.endTime⟩)

/-- The failure points inside the per-clip loop of `trimVideo`:
    `FS('writeFile', ...)`, `ffmpeg.run(...)`, `FS('readFile', ...)`, and
    the empty-output check.  (The best-effort `unlink` cleanup failure is
    caught and logged inside the loop and never aborts it, so it is not an
    outcome.) -/
inductive ClipFailKind
  | writeFail
  | runFail
  | readFail
  | emptyOutput
deriving DecidableEq, Repr

/-- The error reports `trimVideo` can surface, each carrying the 1-based
    clip number shown in the toast text where the source interpolates it. -/
inductive TrimError
  | noFile
  | noClips
  | engineUnavailable
  | fileReadFailed
  | unsupportedFormat
  | invalidClip (clipNumber : Nat)
  | clipFailed (clipNumber : Nat) (kind : ClipFailKind)
deriving DecidableEq, Repr

/-- The modal phase the pipeline is left in: `editing` is
    `renderVideoPlayer()`, `retryScreen` is the inline retry-button screen,
    `resetState` is `resetTrimmerModal()`, `results` is
    `renderResultsTable()`. -/
inductive Phase
  | editing
  | retryScreen
  | resetState
  | results
deriving DecidableEq, Repr

/-- Observable outcome of one `trimVideo` run.  `trimmedVideos` is
    `this.trimmedVideos` at the end (as clip numbers); `sliders` is
    `this.sliders` (`renderVideoPlayer` leaves it untouched,
    `resetTrimmerModal` clears it); `processed` counts clips whose loop
    body was entered; `loadAttempts` counts calls to `loadFFmpeg` made by
    this run; `retryAffordance` records whether a retry button was
    offered. -/
structure TrimRun where
  phase : Phase
  trimmedVideos : List Nat
  sliders : List Slider
  error : Option TrimError
  processed : Nat
  loadAttempts : Nat
  retryAffordance : Bool
deriving DecidableEq, Repr

/-- Embeds the `for` loop over `accurateSliders` in `trimVideo`: clips are
    processed in order; the first failing clip aborts the run via
    `renderVideoPlayer()` (which empties `this.trimmedVideos` and keeps
    `this.sliders`); full success ends in `renderResultsTable()`. -/
def trimLoopAux (env : Nat → Option ClipFailKind) (sliders : List Slider) (total : Nat) :
    List Nat → List Nat → TrimRun
  | arts, [] => ⟨.results, arts, sliders, none, total, 1, false⟩
  | arts, i :: rest =>
    match env i with
    | some k => ⟨.editing, [], sliders, some (.clipFailed (i + 1) k), i + 1, 1, false⟩
    | none => trimLoopAux env sliders total (arts ++ [i + 1]) rest

/-- Embeds `trimVideo`.  Guard order follows the source: missing file,
    empty clip list, `loadFFmpeg` (one on-demand attempt; failure shows the
    retry screen), `fetchFile` (failure resets the modal), format check
    (failure resets the modal), zero-length-after-truncation validation
    (failure returns to editing with the first offending clip number), then
    the per-clip loop. -/
def trimVideo (hasFile loadOk readOk formatOk : Bool)
    (env : Nat → Option ClipFailKind) (sliders : List Slider) : TrimRun :=
  if hasFile = false then ⟨.editing, [], sliders, some .noFile, 0, 0, false⟩
  else if sliders.isEmpty then ⟨.editing, [], sliders, some .noClips, 0, 0, false⟩
  else if loadOk = false then
    ⟨.retryScreen, [], sliders, some .engineUnavailable, 0, 1, true⟩
  else if readOk = false then ⟨.resetState, [], [], some .fileReadFailed, 0, 1, false⟩
  else if formatOk = false then ⟨.resetState, [], [], some .unsupportedFormat, 0, 1, false⟩
  else
    let acc := accurateSliders sliders
    match acc.findIdx? (fun s => decide (s.endTime ≤ s.startTime)) with
    | some i => ⟨.editing, [], sliders, some (.invalidClip (i + 1)), 0, 1, false⟩
    | none => trimLoopAux env sliders acc.length [] (List.range acc.length)

/-! ## Proactive transcoder preload (preloadFFmpeg) -/

def maxPreloadAttempts : Nat := 3

/-- Outcome of the proactive preload chain: total `loadFFmpeg` attempts
    made, the backoff delays (ms) scheduled between consecutive attempts,
    whether the runtime ended up loaded, and whether any error was surfaced
    to the user (the source only `console.warn`s). -/
structure PreloadRun where
  attempts : Nat
  delays : List Nat
  loaded : Bool
  surfaced : Bool
deriving DecidableEq, Repr

/-- Embeds `preloadFFmpeg`: attempt `made + 1` runs; on failure
    `preloadAttempts` becomes `made + 1` and, while below
    `maxPreloadAttempts`, a retry is scheduled after
    `min(1000 * 2 ^ (preloadAttempts - 1), 5000)` ms; otherwise it gives up
    silently.  The fuel equals the remaining attempt budget and never runs
    out (the guard stops at `maxPreloadAttempts`). -/
def preloadAux (loadOk : Nat → Bool) : Nat → Nat → List Nat → PreloadRun
  | 0, made, ds => ⟨made, ds, false, false⟩
  | fuel + 1, made, ds =>
    if loadOk (made + 1) then ⟨made + 1, ds, true, false⟩
    else if made + 1 < maxPreloadAttempts then
      preloadAux loadOk fuel (made + 1) (ds ++ [min (1000 * 2 ^ made) 5000])
    else ⟨made + 1, ds, false, false⟩

def preloadFFmpeg (loadOk : Nat → Bool) : PreloadRun :=
  preloadAux loadOk maxPreloadAttempts 0 []

/-! ## Upload strategies -/

/-- One network call of the two-phase strategy, tagged with the item index:
    `media i` is the POST to `this.url.media` for item `i`, `lessonRecord i`
    is the POST to `this.url.lesson` for item `i`. -/
inductive UploadCall
  | media (index : Nat)
  | lessonRecord (index : Nat)
deriving DecidableEq, Repr

/-- Response of the media-creation endpoint as `sendVideosToSkillTriks`
    inspects it: HTTP ok flag, optional `message` field of the JSON body,
    and whether `id`/`video_id` and `title.raw` are present. -/
structure MediaResp where
  ok : Bool
  message : Option String
  hasId : Bool
  hasTitle : Bool

/-- Response of the record-creation (lesson) endpoint. -/
structure LessonResp where
  ok : Bool
  message : Option String

structure UploadEnv where
  media : Nat → MediaResp
  lesson : Nat → LessonResp

/-- The fixed toast text of the `.catch` handler at the end of
    `sendVideosToSkillTriks`. -/
def failedUploadToastText : String :=
  "Something went wrong while uploading. Please try again later."

/-- The success toast of `uploadNext` once every item is committed
    (plural/singular on `results.length`). -/
def successToastText (n : Nat) : String :=
  if 1 < n then toString n ++ " lessons have been created successfully!"
  else "Your lesson has been created successfully!"

/-- Observable outcome of one `sendVideosToSkillTriks` run: the ordered
    network calls made, the `completed` counter, how many
    `lessonResponseReady` events were dispatched, the user-facing toast,
    the internal `Error` message that reached the `.catch` handler (the
    source discards it), and whether the run succeeded. -/
structure SkillTriksRun where
  calls : List UploadCall
  completed : Nat
  eventsEmitted : Nat
  toast : String
  thrown : Option String
  success : Bool
deriving DecidableEq, Repr

/-- The `.catch` handler: a generic toast (the rejected error message is
    ignored), `resetTrimmerModal()`, and a rejected promise. -/
def uploadFailRun (calls : List UploadCall) (completed : Nat) (msg : String) : SkillTriksRun :=
  ⟨calls, completed, 0, failedUploadToastText, some msg, false⟩

/-- Embeds `uploadNext`: strictly sequential recursion over the remaining
    item indices.  For each item the media POST runs first; `!res.ok`
    throws `data?.message || 'Failed to upload video.'`; a missing id or
    title throws the corresponding fixed message; then the lesson POST
    runs; `!res.ok` throws `data?.message || 'Failed to create lesson.'`;
    on success `completed` increments and the next item starts.  When the
    index reaches the total, `setLessonResponseSend(true)` dispatches one
    payload-free `lessonResponseReady` event, the success toast shows, and
    a reset is scheduled. -/
def uploadNextAux (env : UploadEnv) : List UploadCall → Nat → List Nat → SkillTriksRun
  | calls, completed, [] =>
    ⟨calls, completed, 1, successToastText completed, none, true⟩
  | calls, completed, i :: rest =>
    let m := env.media i
    let callsAfterMedia := calls ++ [UploadCall.media i]
    if m.ok = false then
      uploadFailRun callsAfterMedia completed (m.message.getD "Failed to upload video.")
    else if m.hasId = false then
      uploadFailRun callsAfterMedia completed "No video_id returned from media API."
    else if m.hasTitle = false then
      uploadFailRun callsAfterMedia completed "No title found in media response."
    else
      let l := env.lesson i
      let callsAfterLesson := callsAfterMedia ++ [UploadCall.lessonRecord i]
      if l.ok = false then
        uploadFailRun callsAfterLesson completed (l.message.getD "Failed to create lesson.")
      else uploadNextAux env callsAfterLesson (completed + 1) rest

def sendVideosToSkillTriks (env : UploadEnv) (total : Nat) : SkillTriksRun :=
  uploadNextAux env [] 0 (List.range total)

/-- Item `i` commits fully: media POST ok with id and title, lesson POST ok. -/
def itemOk (env : UploadEnv) (i : Nat) : Prop :=
  (env.media i).ok = true ∧ (env.media i).hasId = true ∧
  (env.media i).hasTitle = true ∧ (env.lesson i).ok = true

instance (env : UploadEnv) (i : Nat) : Decidable (itemOk env i) := by
  unfold itemOk; infer_instance

/-- The interleaved call sequence of `m` fully committed items starting at
    index `j`: media then lesson for each item in order. -/
def seqCallsFrom (j m : Nat) : List UploadCall :=
  (List.range' j m).flatMap (fun t => [UploadCall.media t, UploadCall.lessonRecord t])

def seqCalls (n : Nat) : List UploadCall := seqCallsFrom 0 n

/-- A concrete two-phase environment: all media calls succeed with id and
    title; the lesson (record-creation) call of item 1 fails with the
    backend message "quota exceeded"; everything else succeeds. -/
def c4Env : UploadEnv :=
  ⟨fun _ => ⟨true, none, true, true⟩,
   fun i => if i = 1 then ⟨false, some "quota exceeded"⟩ else ⟨true, none⟩⟩

/-- A concrete two-phase environment where every item commits. -/
def allOkEnv : UploadEnv :=
  ⟨fun _ => ⟨true, none, true, true⟩, fun _ => ⟨true, none⟩⟩

/-- Observable outcome of the bulk strategy `sendVideos`. -/
structure BulkRun where
  eventsEmitted : Nat
  toast : String
  didReset : Bool
  success : Bool
deriving DecidableEq, Repr

/-- Embeds `sendVideos`: one multipart POST; a 2xx response toasts success
    and schedules `resetTrimmerModal`, a non-ok response (or thrown error)
    toasts failure and resets.  Neither path calls
    `setLessonResponseSend(true)`, so no `lessonResponseReady` event is
    dispatched. -/
def sendVideos (responseOk : Bool) : BulkRun :=
  if responseOk then ⟨0, "Videos uploaded successfully!", true, true⟩
  else ⟨0, "Failed to upload videos. Please try again.", true, false⟩

/-! ## Results view (removeTrimmedVideo) -/

/-- Embeds `removeTrimmedVideo`: both `this.trimmedVideos` and
    `this.sliders` are filtered with `(_, i) => index !== i`. -/
def removeTrimmedVideo (trimmedVideos : List Nat) (sliders : List Slider)
    (index : Nat) : List Nat × List Slider :=
  (removeAux index 0 trimmedVideos, removeAux index 0 sliders)

/-! ## Duration classification (calculateLessonTimeDuration)

  JavaScript `Number` values that may be NaN are modelled as `Option ℚ`
  with `none` for NaN; NaN propagates through arithmetic and makes every
  comparison false. -/

/-- Splits a character list on a separator, as JS `String.split` does for a
    single-character separator ("a:b" gives ["a", "b"], "" gives [""]). -/
def splitOnChar (sep : Char) : List Char → List (List Char)
  | [] => [[]]
  | c :: rest =>
    if c = sep then [] :: splitOnChar sep rest
    else
      match splitOnChar sep rest with
      | [] => [[c]]
      | h :: t => (c :: h) :: t

def allDigits (cs : List Char) : Bool := cs.all (fun c => c.isDigit)

def digitsToNat (cs : List Char) : Nat :=
  cs.foldl (fun acc c => 10 * acc + (c.toNat - 48)) 0

/-- Embeds JS `Number(string)` on the fragment the duration utility can
    receive: the empty string is 0, a plain or dotted non-negative decimal
    literal is its value, and anything else (any non-digit character) is
    NaN, encoded as `none`. -/
def jsNumber (cs : List Char) : Option ℚ :=
  if cs = [] then some 0
  else
    match splitOnChar '.' cs with
    | [ip] => if allDigits ip = true then some (digitsToNat ip : ℚ) else none
    | [ip, fp] =>
      if ip = [] ∧ fp = [] then none
      else if allDigits ip = true ∧ allDigits fp = true then
        some ((digitsToNat ip : ℚ) + (digitsToNat fp : ℚ) / (10 : ℚ) ^ fp.length)
      else none
    | _ => none

/-- NaN-propagating addition on JS numbers. -/
def jsAdd (a b : Option ℚ) : Option ℚ := a.bind fun x => b.map fun y => x + y

/-- NaN-propagating multiplication by a constant. -/
def jsMulConst (a : Option ℚ) (c : ℚ) : Option ℚ := a.map fun x => x * c

structure LessonDuration where
  duration : Option ℚ
  duration_type : String
deriving DecidableEq, Repr

/-- Embeds the tail of `calculateLessonTimeDuration`: `NaN >= 3600` is
    false, so a NaN total falls into the minute branch where
    `Math.ceil(NaN / 60)` is again NaN. -/
def classifyTotal : Option ℚ → LessonDuration
  | none => ⟨none, "minute"⟩
  | some t =>
    if 3600 ≤ t then ⟨some ((⌊t / 3600⌋ : Int) : ℚ), "hour"⟩
    else ⟨some ((⌈t / 60⌉ : Int) : ℚ), "minute"⟩

/-- Embeds `calculateLessonTimeDuration`: split on ":", map `Number`;
    two fields are MM:SS, three are HH:MM:SS, any other field count
    returns `{ duration: 0, duration_type: 'minute' }` immediately. -/
def calculateLessonTimeDuration (timeString : String) : LessonDuration :=
  match (splitOnChar ':' timeString.data).map jsNumber with
  | [minutes, seconds] => classifyTotal (jsAdd (jsMulConst minutes 60) seconds)
  | [hours, minutes, seconds] =>
    classifyTotal (jsAdd (jsAdd (jsMulConst hours 3600) (jsMulConst minutes 60)) seconds)
  | _ => ⟨some 0, "minute"⟩

/-! ### Invariant preservation lemmas -/

lemma pickLongest_mem (l : List Slider) (b : Slider) :
    pickLongest b l = b ∨ pickLongest b l ∈ l := by
  induction l generalizing b with
  | nil => exact Or.inl rfl
  | cons s rest ih =>
    unfold pickLongest
    by_cases h : sliderLen b < sliderLen s
    · simp only [if_pos h]
      rcases ih s with h' | h'
      · exact Or.inr (by rw [h']; exact List.mem_cons_self s rest)
      · exact Or.inr (List.mem_cons_of_mem s h')
    · simp only [if_neg h]
      rcases ih b with h' | h'
      · exact Or.inl h'
      · exact Or.inr (List.mem_cons_of_mem s h')

lemma splitRange_wf (duration : ℚ) (s : Slider) (h : SliderWF duration s) :
    SliderWF duration (splitRange s) := by
  obtain ⟨h0, hlt, hd⟩ := h
  refine ⟨?_, ?_, ?_⟩ <;> simp only [splitRange, sliderLen] <;> linarith

lemma addNewSlider_wf (duration : ℚ) (l : List Slider) (h : TimelineWF duration l) :
    TimelineWF duration (addNewSlider l).1 := by
  cases l with
  | nil => intro s hs; simp [addNewSlider] at hs
  | cons s0 rest =>
    intro s hs
    simp only [addNewSlider, List.mem_append, List.mem_singleton] at hs
    rcases hs with hs | hs
    · exact h s hs
    · subst hs
      apply splitRange_wf
      rcases pickLongest_mem (s0 :: rest) s0 with h' | h'
      · rw [h']; exact h s0 (List.mem_cons_self s0 rest)
      · exact h _ h'

lemma removeAux_mem {α : Type} (index : Nat) :
    ∀ (k : Nat) (l : List α) (a : α), a ∈ removeAux index k l → a ∈ l := by
  intro k l
  induction l generalizing k with
  | nil => intro a ha; simp [removeAux] at ha
  | cons x rest ih =>
    intro a ha
    unfold removeAux at ha
    by_cases h : k = index
    · simp only [if_pos h] at ha
      exact List.mem_cons_of_mem x (ih (k + 1) a ha)
    · simp only [if_neg h, List.mem_cons] at ha
      rcases ha with ha | ha
      · exact ha ▸ List.mem_cons_self x rest
      · exact List.mem_cons_of_mem x (ih (k + 1) a ha)

lemma removeSlider_wf (duration : ℚ) (l : List Slider) (i : Nat)
    (h : TimelineWF duration l) : TimelineWF duration (removeSlider l i) :=
  fun s hs => h s (removeAux_mem i 0 l s hs)

lemma setBoundary_wf (duration : ℚ) (l : List Slider) (i : Nat) (g : Bool) (t : ℚ)
    (h : TimelineWF duration l) : TimelineWF duration (setBoundary duration l i g t) := by
  unfold setBoundary
  cases hget : l.get? i with
  | none => exact h
  | some s =>
    have hs : SliderWF duration s := h s (List.get?_mem hget)
    obtain ⟨hs0, hslt, hsd⟩ := hs
    cases g with
    | true =>
      by_cases ht : t < s.endTime
      · simp only [if_pos ht, if_pos rfl]
        intro x hx
        rcases List.mem_or_eq_of_mem_set hx with hx | hx
        · exact h x hx
        · subst hx
          refine ⟨le_max_right t 0, ?_, hsd⟩
          exact max_lt ht (lt_of_le_of_lt hs0 hslt)
      · simp only [if_neg ht]; exact h
    | false =>
      by_cases ht : s.startTime < t
      · simp only [if_pos ht]
        intro x hx
        rcases List.mem_or_eq_of_mem_set hx with hx | hx
        · exact h x hx
        · subst hx
          exact ⟨hs0, lt_min ht (lt_of_lt_of_le hslt hsd), min_le_right t duration⟩
      · simp only [if_neg ht]; exact h

lemma applyOp_wf (duration : ℚ) (l : List Slider) (op : TimelineOp)
    (h : TimelineWF duration l) : TimelineWF duration (applyOp duration l op) := by
  cases op with
  | addBySplit => exact addNewSlider_wf duration l h
  | remove i => exact removeSlider_wf duration l i h
  | setBoundary i g t => exact setBoundary_wf duration l i g t h

lemma applyOps_wf (duration : ℚ) (ops : List TimelineOp) :
    ∀ l : List Slider, TimelineWF duration l → TimelineWF duration (applyOps duration l ops) := by
  induction ops with
  | nil => intro l h; exact h
  | cons op rest ih =>
    intro l h
    exact ih (applyOp duration l op) (applyOp_wf duration l op h)

/-- **C1.** For every media duration `d > 0` and every sequence of
    `addBySplit` / `remove` / `setBoundary` (boundary-drag) operations
    applied after initialization, every range remaining in the timeline
    satisfies `0 ≤ startTime < endTime ≤ d`.  (The statement quantifies
    over all operation sequences, so it holds after every prefix, i.e.
    at all times.) -/
theorem claim_C1_timeline_invariant (d : ℚ) (hd : 0 < d) (ops : List TimelineOp) :
    TimelineWF d (applyOps d (initSliders d) ops) := by
  apply applyOps_wf
  intro s hs
  simp only [initSliders, List.mem_singleton] at hs
  subst hs
  exact ⟨le_refl 0, hd, le_refl d⟩

theorem claim_C1_timeline_invariant_witness :
    TimelineWF 100 (applyOps 100 (initSliders 100)
      [.addBySplit, .setBoundary 0 true 10, .setBoundary 1 false 200, .remove 0]) :=
  claim_C1_timeline_invariant 100 (by norm_num) _

/-! ### addBySplit: concrete behaviour (C7) and general selection (C8) -/

/-- **C7 counterexample.** `addNewSlider` on the single range `[0, 100]`
    appends `[25, 75]` (midpoint 50 plus/minus 0.25 times the length 100),
    not `[37.5, 62.5]` as the claim states. -/
theorem claim_C7_counterexample :
    (addNewSlider [⟨0, 100⟩]).1 = [⟨0, 100⟩, ⟨25, 75⟩] ∧
    (⟨25, 75⟩ : Slider) ≠ ⟨75 / 2, 125 / 2⟩ := by
  constructor
  · show [(⟨0, 100⟩ : Slider)] ++ [splitRange (pickLongest ⟨0, 100⟩ [⟨0, 100⟩])] = _
    simp only [pickLongest, sliderLen, splitRange]
    norm_num
  · intro hcontra
    have h1 : (25 : ℚ) = 75 / 2 := congrArg Slider.startTime hcontra
    norm_num at h1

/-- **C7 (amended).** Calling `addBySplit` on a timeline holding the single
    range `[0, 100]` appends a new range exactly equal to `[25, 75]`, leaves
    the original range `[0, 100]` unchanged, and emits no report. -/
theorem claim_C7_addBySplit_concrete :
    addNewSlider [⟨0, 100⟩] = ([⟨0, 100⟩, ⟨25, 75⟩], []) := by
  show ([(⟨0, 100⟩ : Slider)] ++ [splitRange (pickLongest ⟨0, 100⟩ [⟨0, 100⟩])], []) = _
  simp only [pickLongest, sliderLen, splitRange]
  norm_num

/-- The accumulator scan of `addNewSlider` returns either the seed (when no
    list element is strictly longer) or the first element of maximal length
    among those strictly longer than the seed. -/
lemma pickLongest_spec (l : List Slider) :
    ∀ b : Slider,
      (pickLongest b l = b ∧ ∀ s ∈ l, sliderLen s ≤ sliderLen b) ∨
      ∃ i : Nat, ∃ h : i < l.length,
        pickLongest b l = l[i] ∧ sliderLen b < sliderLen l[i] ∧
        (∀ j : Nat, ∀ hj : j < l.length, sliderLen l[j] ≤ sliderLen l[i]) ∧
        (∀ j : Nat, ∀ hj : j < l.length, j < i → sliderLen l[j] < sliderLen l[i]) := by
  induction l with
  | nil => intro b; exact Or.inl ⟨rfl, by simp⟩
  | cons s rest ih =>
    intro b
    unfold pickLongest
    by_cases h : sliderLen b < sliderLen s
    · simp only [if_pos h]
      rcases ih s with ⟨heq, hall⟩ | ⟨i, hi, heq, hgt, hmax, hfirst⟩
      · refine Or.inr ⟨0, by simp, ?_, ?_, ?_, ?_⟩
        · simpa using heq
        · simpa using h
        · intro j hj
          cases j with
          | zero => simp
          | succ j =>
            simp only [List.getElem_cons_succ, List.getElem_cons_zero]
            exact hall _ (List.getElem_mem _)
        · intro j hj hj0; omega
      · refine Or.inr ⟨i + 1, by simpa using hi, ?_, ?_, ?_, ?_⟩
        · simpa using heq
        · simp only [List.getElem_cons_succ]
          exact lt_trans h hgt
        · intro j hj
          cases j with
          | zero =>
            simp only [List.getElem_cons_zero, List.getElem_cons_succ]
            exact le_of_lt hgt
          | succ j =>
            simp only [List.getElem_cons_succ]
            exact hmax j (by simp only [List.length_cons] at hj; omega)
        · intro j hj hji
          cases j with
          | zero =>
            simp only [List.getElem_cons_zero, List.getElem_cons_succ]
            exact hgt
          | succ j =>
            simp only [List.getElem_cons_succ]
            exact hfirst j (by simp only [List.length_cons] at hj; omega) (by omega)
    · simp only [if_neg h]
      rcases ih b with ⟨heq, hall⟩ | ⟨i, hi, heq, hgt, hmax, hfirst⟩
      · refine Or.inl ⟨heq, ?_⟩
        intro x hx
        rcases List.mem_cons.mp hx with hx | hx
        · subst hx; exact le_of_not_lt h
        · exact hall x hx
      · refine Or.inr ⟨i + 1, by simpa using hi, ?_, ?_, ?_, ?_⟩
        · simpa using heq
        · simpa using hgt
        · intro j hj
          cases j with
          | zero =>
            simp only [List.getElem_cons_zero, List.getElem_cons_succ]
            exact le_trans (le_of_not_lt h) (le_of_lt hgt)
          | succ j =>
            simp only [List.getElem_cons_succ]
            exact hmax j (by simp only [List.length_cons] at hj; omega)
        · intro j hj hji
          cases j with
          | zero =>
            simp only [List.getElem_cons_zero, List.getElem_cons_succ]
            exact lt_of_le_of_lt (le_of_not_lt h) hgt
          | succ j =>
            simp only [List.getElem_cons_succ]
            exact hfirst j (by simp only [List.length_cons] at hj; omega) (by omega)

/-- **C8 counterexample.** On an empty timeline `addBySplit` is a no-op
    that emits no report whatsoever (the emitted-report component of the
    model is empty, length 0): the source guard is a bare `return;`, so no
    `EmptyTimeline` report is produced, contrary to the claim. -/
theorem claim_C8_counterexample :
    addNewSlider [] = ([], []) ∧ (addNewSlider []).2.length = 0 :=
  ⟨rfl, rfl⟩

/-- **C8 (amended).** On any non-empty timeline, `addBySplit` selects the
    range with maximum length `(endTime - startTime)`, breaking ties by
    lowest index, and appends the range
    `[mid - 0.25 * len, mid + 0.25 * len]` of that slider to the end of the
    sequence without modifying any existing range; on an empty timeline it
    is a silent no-op (no report is emitted — the source guard is a bare
    `return`, so in particular no `EmptyTimeline` report is produced). -/
theorem claim_C8_addBySplit_general :
    addNewSlider [] = ([], []) ∧
    ∀ (s0 : Slider) (rest : List Slider),
      ∃ i : Nat, ∃ h : i < (s0 :: rest).length,
        (∀ j : Nat, ∀ hj : j < (s0 :: rest).length,
            sliderLen (s0 :: rest)[j] ≤ sliderLen (s0 :: rest)[i]) ∧
        (∀ j : Nat, ∀ hj : j < (s0 :: rest).length,
            sliderLen (s0 :: rest)[j] = sliderLen (s0 :: rest)[i] → i ≤ j) ∧
        addNewSlider (s0 :: rest) =
          ((s0 :: rest) ++ [splitRange (s0 :: rest)[i]], []) := by
  refine ⟨rfl, ?_⟩
  intro s0 rest
  rcases pickLongest_spec (s0 :: rest) s0 with ⟨heq, hall⟩ | ⟨i, hi, heq, _, hmax, hfirst⟩
  · refine ⟨0, by simp, ?_, ?_, ?_⟩
    · intro j hj
      simp only [List.getElem_cons_zero]
      exact hall _ (List.getElem_mem _)
    · intro j hj _; omega
    · simp only [addNewSlider, heq, List.getElem_cons_zero]
  · refine ⟨i, hi, hmax, ?_, ?_⟩
    · intro j hj hjeq
      by_contra hlt
      exact absurd hjeq (ne_of_lt (hfirst j hj (by omega)))
    · simp only [addNewSlider, heq]

/-! ### Trim pipeline lemmas -/

lemma trimLoopAux_fail (env : Nat → Option ClipFailKind) (sliders : List Slider)
    (total : Nat) (k : ClipFailKind) :
    ∀ (m j i : Nat) (arts : List Nat), j ≤ i → i < j + m →
      (∀ t, j ≤ t → t < i → env t = none) → env i = some k →
      trimLoopAux env sliders total arts (List.range' j m) =
        ⟨.editing, [], sliders, some (.clipFailed (i + 1) k), i + 1, 1, false⟩ := by
  intro m
  induction m with
  | zero =>
    intro j i arts h1 h2 _ _
    exact absurd h2 (by omega)
  | succ m ih =>
    intro j i arts h1 h2 hok hfail
    rw [List.range'_succ]
    by_cases hji : j = i
    · subst hji
      simp only [trimLoopAux, hfail]
    · have hji' : j < i := lt_of_le_of_ne h1 hji
      have hj : env j = none := hok j (le_refl j) hji'
      simp only [trimLoopAux, hj]
      exact ih (j + 1) i _ (by omega) (by omega) (fun t ht1 ht2 => hok t (by omega) ht2) hfail

lemma trimLoopAux_loadAttempts (env : Nat → Option ClipFailKind) (sliders : List Slider)
    (total : Nat) :
    ∀ (rem : List Nat) (arts : List Nat),
      (trimLoopAux env sliders total arts rem).loadAttempts = 1 := by
  intro rem
  induction rem with
  | nil => intro arts; rfl
  | cons i rest ih =>
    intro arts
    unfold trimLoopAux
    cases env i with
    | some k => rfl
    | none => exact ih (arts ++ [i + 1])

/-- **C2.** Before any clip is processed, `trimVideo` integer-truncates
    every range to whole seconds; if any truncated range has
    `start ≥ end`, the whole batch is rejected with a clip-indexed invalid
    clip error, the pipeline returns to the editing phase (ranges kept,
    zero clips processed, no artifacts); `{2.9, 3.1}` truncates to `{2, 3}`
    and is accepted while `{2.9, 2.95}` truncates to `{2, 2}` and is
    rejected. -/
theorem claim_C2_truncation_validation :
    (∀ (sliders : List Slider) (env : Nat → Option ClipFailKind) (i : Nat),
        (accurateSliders sliders).findIdx? (fun s => decide (s.endTime ≤ s.startTime)) =
            some i →
        trimVideo true true true true env sliders =
          ⟨.editing, [], sliders, some (.invalidClip (i + 1)), 0, 1, false⟩) ∧
    accurateSliders [⟨29/10, 31/10⟩] = [⟨2, 3⟩] ∧
    accurateSliders [⟨29/10, 295/100⟩] = [⟨2, 2⟩] ∧
    trimVideo true true true true (fun _ => none) [⟨29/10, 31/10⟩] =
      ⟨.results, [1], [⟨29/10, 31/10⟩], none, 1, 1, false⟩ ∧
    trimVideo true true true true (fun _ => none) [⟨29/10, 295/100⟩] =
      ⟨.editing, [], [⟨29/10, 295/100⟩], some (.invalidClip 1), 0, 1, false⟩ := by
  have hacc1 : accurateSliders [⟨29/10, 31/10⟩] = [⟨2, 3⟩] := by
    simp only [accurateSliders, List.map_cons, List.map_nil, jsTrunc]
    norm_num
  have hacc2 : accurateSliders [⟨29/10, 295/100⟩] = [⟨2, 2⟩] := by
    simp only [accurateSliders, List.map_cons, List.map_nil, jsTrunc]
    norm_num
  refine ⟨?_, hacc1, hacc2, ?_, ?_⟩
  · intro sliders env i hfind
    have hne : sliders.isEmpty = false := by
      cases sliders with
      | nil => simp [accurateSliders] at hfind
      | cons a l => rfl
    simp only [trimVideo, hne, hfind]
    norm_num
  · simp only [trimVideo, hacc1]
    norm_num [List.findIdx?_cons, trimLoopAux, List.range_succ]
  · simp only [trimVideo, hacc2]
    norm_num [List.findIdx?_cons]

theorem claim_C2_truncation_validation_witness :
    trimVideo true true true true (fun _ => none) [⟨5, 5⟩] =
      ⟨.editing, [], [⟨5, 5⟩], some (.invalidClip 1), 0, 1, false⟩ :=
  claim_C2_truncation_validation.1 [⟨5, 5⟩] (fun _ => none) 0
    (by simp only [accurateSliders, List.map_cons, List.map_nil, jsTrunc]
        norm_num [List.findIdx?_cons])

/-- **C3.** If processing clip `i` fails during the per-clip trim loop
    (write, trim command, read-back, or empty output), the remaining clips
    are not processed (`processed = i + 1`), every artifact already
    produced is discarded (`trimmedVideos = []`), and the pipeline returns
    to the editing phase with a clip-indexed error while the clip ranges
    are preserved. -/
theorem claim_C3_clip_failure_isolation (sliders : List Slider)
    (env : Nat → Option ClipFailKind) (i : Nat) (k : ClipFailKind)
    (hvalid : (accurateSliders sliders).findIdx?
        (fun s => decide (s.endTime ≤ s.startTime)) = none)
    (hok : ∀ j, j < i → env j = none)
    (hfail : env i = some k)
    (hi : i < sliders.length) :
    trimVideo true true true true env sliders =
      ⟨.editing, [], sliders, some (.clipFailed (i + 1) k), i + 1, 1, false⟩ := by
  have hne : sliders.isEmpty = false := by
    cases sliders with
    | nil => simp at hi
    | cons a l => rfl
  have hlen : (accurateSliders sliders).length = sliders.length := by
    simp [accurateSliders]
  simp only [trimVideo, hne, hvalid]
  norm_num
  rw [hlen, List.range_eq_range']
  exact trimLoopAux_fail env sliders sliders.length k sliders.length 0 i []
    (Nat.zero_le i) (by omega) (fun t _ ht2 => hok t ht2) hfail

theorem claim_C3_clip_failure_isolation_witness :
    trimVideo true true true true
        (fun j => if j = 1 then some .runFail else none) [⟨0, 10⟩, ⟨0, 5⟩] =
      ⟨.editing, [], [⟨0, 10⟩, ⟨0, 5⟩], some (.clipFailed 2 .runFail), 2, 1, false⟩ :=
  claim_C3_clip_failure_isolation [⟨0, 10⟩, ⟨0, 5⟩] _ 1 .runFail
    (by simp only [accurateSliders, List.map_cons, List.map_nil, jsTrunc]
        norm_num [List.findIdx?_cons])
    (by intro j hj
        have hj0 : j = 0 := by omega
        subst hj0
        rfl)
    rfl
    (by norm_num)

/-- **C6.** Proactive (startup) transcoder acquisition makes at most 3
    attempts, waiting `min(1000 * 2 ^ (attempt - 1), 5000)` ms between
    consecutive attempts, and after exhausting its attempts fails silently
    (nothing surfaced); the on-demand acquisition performed as a
    prerequisite to trimming makes exactly one attempt, never retries
    automatically, and on failure surfaces the error with a retry
    affordance. -/
theorem claim_C6_acquisition_retry_policy :
    (∀ loadOk : Nat → Bool,
        (preloadFFmpeg loadOk).attempts ≤ 3 ∧
        (preloadFFmpeg loadOk).delays =
          (List.range ((preloadFFmpeg loadOk).attempts - 1)).map
            (fun a => min (1000 * 2 ^ a) 5000) ∧
        (preloadFFmpeg loadOk).surfaced = false) ∧
    (∀ (loadOk readOk formatOk : Bool) (env : Nat → Option ClipFailKind)
        (sliders : List Slider), sliders ≠ [] →
      (trimVideo true loadOk readOk formatOk env sliders).loadAttempts = 1 ∧
      (loadOk = false →
        trimVideo true loadOk readOk formatOk env sliders =
          ⟨.retryScreen, [], sliders, some .engineUnavailable, 0, 1, true⟩)) := by
  constructor
  · intro loadOk
    cases h1 : loadOk 1 <;> cases h2 : loadOk 2 <;> cases h3 : loadOk 3 <;>
      simp [preloadFFmpeg, preloadAux, maxPreloadAttempts, h1, h2, h3, List.range_succ]
  · intro loadOk readOk formatOk env sliders hne
    have hne' : sliders.isEmpty = false := by
      cases sliders with
      | nil => exact absurd rfl hne
      | cons a l => rfl
    constructor
    · cases loadOk with
      | false => simp [trimVideo, hne']
      | true =>
        cases readOk with
        | false => simp [trimVideo, hne']
        | true =>
          cases formatOk with
          | false => simp [trimVideo, hne']
          | true =>
            simp only [trimVideo, hne']
            norm_num
            cases hfind : (accurateSliders sliders).findIdx?
                (fun s => decide (s.endTime ≤ s.startTime)) with
            | some i => simp [hfind]
            | none => simp [hfind, trimLoopAux_loadAttempts]
    · intro hl
      subst hl
      simp [trimVideo, hne']

theorem claim_C6_acquisition_retry_policy_witness :
    (trimVideo true false true true (fun _ => none) [⟨0, 5⟩]).loadAttempts = 1 ∧
    (false = false →
      trimVideo true false true true (fun _ => none) [⟨0, 5⟩] =
        ⟨.retryScreen, [], [⟨0, 5⟩], some .engineUnavailable, 0, 1, true⟩) :=
  claim_C6_acquisition_retry_policy.2 false true true (fun _ => none) [⟨0, 5⟩]
    (by simp)

theorem claim_C8_addBySplit_general_witness :
    ∃ i : Nat, ∃ h : i < ([⟨0, 4⟩, ⟨1, 3⟩] : List Slider).length,
      (∀ j : Nat, ∀ hj : j < ([⟨0, 4⟩, ⟨1, 3⟩] : List Slider).length,
          sliderLen ([⟨0, 4⟩, ⟨1, 3⟩] : List Slider)[j] ≤
            sliderLen ([⟨0, 4⟩, ⟨1, 3⟩] : List Slider)[i]) ∧
      (∀ j : Nat, ∀ hj : j < ([⟨0, 4⟩, ⟨1, 3⟩] : List Slider).length,
          sliderLen ([⟨0, 4⟩, ⟨1, 3⟩] : List Slider)[j] =
            sliderLen ([⟨0, 4⟩, ⟨1, 3⟩] : List Slider)[i] → i ≤ j) ∧
      addNewSlider [⟨0, 4⟩, ⟨1, 3⟩] =
        (([⟨0, 4⟩, ⟨1, 3⟩] : List Slider) ++
          [splitRange ([⟨0, 4⟩, ⟨1, 3⟩] : List Slider)[i]], []) :=
  claim_C8_addBySplit_general.2 ⟨0, 4⟩ [⟨1, 3⟩]

/-! ### Results view lemmas -/

lemma removeAux_shift {α : Type} :
    ∀ (l : List α) (j k : Nat), removeAux (j + 1) (k + 1) l = removeAux j k l := by
  intro l
  induction l with
  | nil => intro j k; rfl
  | cons a rest ih =>
    intro j k
    unfold removeAux
    by_cases h : k = j
    · subst h
      simp only [if_pos rfl]
      exact ih k (k + 1)
    · have h' : ¬(k + 1 = j + 1) := by omega
      simp only [if_neg h, if_neg h']
      rw [ih j (k + 1)]

lemma removeAux_past {α : Type} :
    ∀ (l : List α) (j k : Nat), j < k → removeAux j k l = l := by
  intro l
  induction l with
  | nil => intro j k _; rfl
  | cons a rest ih =>
    intro j k h
    unfold removeAux
    have h' : ¬(k = j) := by omega
    simp only [if_neg h']
    rw [ih j (k + 1) (by omega)]

lemma removeAux_eq_take_drop {α : Type} :
    ∀ (l : List α) (i : Nat), removeAux i 0 l = l.take i ++ l.drop (i + 1) := by
  intro l
  induction l with
  | nil => intro i; simp [removeAux]
  | cons a rest ih =>
    intro i
    cases i with
    | zero =>
      unfold removeAux
      simp only [if_pos rfl]
      rw [removeAux_past rest 0 1 (by omega)]
      simp
    | succ i =>
      unfold removeAux
      have h : ¬(0 = i + 1) := by omega
      simp only [if_neg h]
      rw [removeAux_shift rest i 0, ih i]
      simp

/-- **C10.** `removeTrimmedVideo i` filters both the artifact list and the
    clip-range list at the same index `i`: each result equals the original
    list with position `i` dropped and every other element kept in order,
    so returning to edit mode after an artifact removal shows the timeline
    with that range deleted even though no timeline edit was requested. -/
theorem claim_C10_remove_artifact_also_removes_range
    (trimmedVideos : List Nat) (sliders : List Slider) (index : Nat) :
    removeTrimmedVideo trimmedVideos sliders index =
      (trimmedVideos.take index ++ trimmedVideos.drop (index + 1),
       sliders.take index ++ sliders.drop (index + 1)) := by
  unfold removeTrimmedVideo
  rw [removeAux_eq_take_drop, removeAux_eq_take_drop]

theorem claim_C10_remove_artifact_also_removes_range_witness :
    removeTrimmedVideo [1, 2, 3] [⟨0, 1⟩, ⟨1, 2⟩, ⟨2, 3⟩] 1 =
      (([1, 2, 3] : List Nat).take 1 ++ ([1, 2, 3] : List Nat).drop 2,
       ([⟨0, 1⟩, ⟨1, 2⟩, ⟨2, 3⟩] : List Slider).take 1 ++
         ([⟨0, 1⟩, ⟨1, 2⟩, ⟨2, 3⟩] : List Slider).drop 2) :=
  claim_C10_remove_artifact_also_removes_range [1, 2, 3] [⟨0, 1⟩, ⟨1, 2⟩, ⟨2, 3⟩] 1

/-! ### Upload strategy lemmas -/

lemma seqCallsFrom_zero (j : Nat) : seqCallsFrom j 0 = [] := rfl

lemma seqCallsFrom_succ (j m : Nat) :
    seqCallsFrom j (m + 1) =
      UploadCall.media j :: UploadCall.lessonRecord j :: seqCallsFrom (j + 1) m := by
  simp [seqCallsFrom, List.range'_succ]

lemma uploadNextAux_ok (env : UploadEnv) :
    ∀ (m j : Nat) (calls : List UploadCall) (completed : Nat),
      (∀ t, j ≤ t → t < j + m → itemOk env t) →
      uploadNextAux env calls completed (List.range' j m) =
        ⟨calls ++ seqCallsFrom j m, completed + m, 1,
          successToastText (completed + m), none, true⟩ := by
  intro m
  induction m with
  | zero =>
    intro j calls completed _
    simp [uploadNextAux, seqCallsFrom]
  | succ m ih =>
    intro j calls completed h
    rw [List.range'_succ]
    obtain ⟨hok1, hok2, hok3, hok4⟩ := h j (le_refl j) (by omega)
    simp only [uploadNextAux, hok1, hok2, hok3, hok4, reduceIte]
    rw [ih (j + 1) _ (completed + 1) (fun t ht1 ht2 => h t (by omega) (by omega))]
    rw [seqCallsFrom_succ, show completed + 1 + m = completed + (m + 1) from by omega]
    simp [List.append_assoc]

lemma uploadNextAux_fail (env : UploadEnv) :
    ∀ (m j i : Nat) (calls : List UploadCall) (completed : Nat),
      j ≤ i → i < j + m →
      (∀ t, j ≤ t → t < i → itemOk env t) → ¬ itemOk env i →
      ∃ (tail : List UploadCall) (msg : String),
        (tail = [UploadCall.media i] ∨
         tail = [UploadCall.media i, UploadCall.lessonRecord i]) ∧
        uploadNextAux env calls completed (List.range' j m) =
          ⟨calls ++ seqCallsFrom j (i - j) ++ tail, completed + (i - j), 0,
            failedUploadToastText, some msg, false⟩ := by
  intro m
  induction m with
  | zero =>
    intro j i calls completed h1 h2 _ _
    exact absurd h2 (by omega)
  | succ m ih =>
    intro j i calls completed h1 h2 hok hfail
    rw [List.range'_succ]
    by_cases hji : j = i
    · subst hji
      simp only [uploadNextAux]
      cases hm1 : (env.media j).ok with
      | false =>
        refine ⟨[UploadCall.media j], (env.media j).message.getD "Failed to upload video.",
          Or.inl rfl, ?_⟩
        simp [hm1, uploadFailRun, Nat.sub_self, seqCallsFrom]
      | true =>
        cases hm2 : (env.media j).hasId with
        | false =>
          refine ⟨[UploadCall.media j], "No video_id returned from media API.",
            Or.inl rfl, ?_⟩
          simp [hm1, hm2, uploadFailRun, Nat.sub_self, seqCallsFrom]
        | true =>
          cases hm3 : (env.media j).hasTitle with
          | false =>
            refine ⟨[UploadCall.media j], "No title found in media response.",
              Or.inl rfl, ?_⟩
            simp [hm1, hm2, hm3, uploadFailRun, Nat.sub_self, seqCallsFrom]
          | true =>
            cases hl : (env.lesson j).ok with
            | false =>
              refine ⟨[UploadCall.media j, UploadCall.lessonRecord j],
                (env.lesson j).message.getD "Failed to create lesson.", Or.inr rfl, ?_⟩
              simp [hm1, hm2, hm3, hl, uploadFailRun, Nat.sub_self, seqCallsFrom]
            | true => exact absurd ⟨hm1, hm2, hm3, hl⟩ hfail
    · have hji' : j < i := lt_of_le_of_ne h1 hji
      obtain ⟨hok1, hok2, hok3, hok4⟩ := hok j (le_refl j) hji'
      simp only [uploadNextAux, hok1, hok2, hok3, hok4, reduceIte]
      obtain ⟨tail, msg, htail, heq⟩ :=
        ih (j + 1) i ((calls ++ [UploadCall.media j]) ++ [UploadCall.lessonRecord j])
          (completed + 1) (by omega) (by omega)
          (fun t ht1 ht2 => hok t (by omega) ht2) hfail
      refine ⟨tail, msg, htail, ?_⟩
      rw [heq, show i - j = (i - (j + 1)) + 1 from by omega, seqCallsFrom_succ,
        show completed + 1 + (i - (j + 1)) = completed + (i - (j + 1) + 1) from by omega]
      simp [List.append_assoc]

/-- **C4 counterexample.** With three items where the record-creation call
    of item 1 fails carrying the backend message "quota exceeded", the
    `.catch` handler discards that message: the reported toast is the fixed
    generic text, not the backend message (the claim says the specific
    backend message is reported). -/
theorem claim_C4_counterexample :
    (sendVideosToSkillTriks c4Env 3).completed = 1 ∧
    (sendVideosToSkillTriks c4Env 3).thrown = some "quota exceeded" ∧
    (sendVideosToSkillTriks c4Env 3).toast = failedUploadToastText ∧
    (sendVideosToSkillTriks c4Env 3).toast ≠ "quota exceeded" := by decide

/-- **C4 (amended).** In the two-phase upload strategy, items are processed
    strictly sequentially (the call trace is media then record per item, in
    index order), a failure on either call for any item aborts all
    remaining items with no rollback of already-committed items so the
    progress counter stops at the number of fully committed items; however
    the failure toast is always the fixed generic text — the specific
    backend message reaches the rejection handler but is discarded, never
    reported. -/
theorem claim_C4_two_phase_upload :
    (∀ (env : UploadEnv) (total : Nat), (∀ j, j < total → itemOk env j) →
        sendVideosToSkillTriks env total =
          ⟨seqCalls total, total, 1, successToastText total, none, true⟩) ∧
    (∀ (env : UploadEnv) (total i : Nat), i < total →
        (∀ j, j < i → itemOk env j) → ¬ itemOk env i →
        (sendVideosToSkillTriks env total).completed = i ∧
        (sendVideosToSkillTriks env total).toast = failedUploadToastText ∧
        (sendVideosToSkillTriks env total).eventsEmitted = 0 ∧
        (sendVideosToSkillTriks env total).success = false ∧
        ((sendVideosToSkillTriks env total).calls =
            seqCalls i ++ [UploadCall.media i] ∨
         (sendVideosToSkillTriks env total).calls =
            seqCalls i ++ [UploadCall.media i, UploadCall.lessonRecord i])) := by
  constructor
  · intro env total h
    unfold sendVideosToSkillTriks
    rw [List.range_eq_range',
      uploadNextAux_ok env total 0 [] 0 (fun t _ ht2 => h t (by omega))]
    simp [seqCalls]
  · intro env total i hi hok hfail
    unfold sendVideosToSkillTriks
    rw [List.range_eq_range']
    obtain ⟨tail, msg, htail, heq⟩ :=
      uploadNextAux_fail env total 0 i [] 0 (Nat.zero_le i) (by omega)
        (fun t _ ht2 => hok t ht2) hfail
    rw [heq]
    rcases htail with h | h <;>
      simp [h, seqCalls]

theorem claim_C4_two_phase_upload_witness :
    (sendVideosToSkillTriks c4Env 3).completed = 1 ∧
    (sendVideosToSkillTriks c4Env 3).toast = failedUploadToastText ∧
    (sendVideosToSkillTriks c4Env 3).eventsEmitted = 0 ∧
    (sendVideosToSkillTriks c4Env 3).success = false ∧
    ((sendVideosToSkillTriks c4Env 3).calls =
        seqCalls 1 ++ [UploadCall.media 1] ∨
     (sendVideosToSkillTriks c4Env 3).calls =
        seqCalls 1 ++ [UploadCall.media 1, UploadCall.lessonRecord 1]) :=
  claim_C4_two_phase_upload.2 c4Env 3 1 (by decide)
    (by intro j hj
        have hj0 : j = 0 := by omega
        subst hj0
        decide)
    (by decide)

/-- **C9 counterexample.** On full success of the bulk strategy
    (`sendVideos` with a 2xx response) no `lessonResponseReady` event is
    dispatched at all: the emission count is 0, not exactly 1 as the claim
    states for either strategy. -/
theorem claim_C9_counterexample :
    (sendVideos true).success = true ∧
    (sendVideos true).eventsEmitted = 0 ∧
    (sendVideos true).eventsEmitted ≠ 1 := by decide

/-- **C9 (amended).** Only the two-phase strategy broadcasts the
    payload-free records-ready signal, exactly once per fully successful
    batch; the bulk strategy never dispatches it (on success or failure). -/
theorem claim_C9_records_ready_signal :
    (∀ (env : UploadEnv) (total : Nat), (∀ j, j < total → itemOk env j) →
        (sendVideosToSkillTriks env total).eventsEmitted = 1) ∧
    (∀ responseOk : Bool, (sendVideos responseOk).eventsEmitted = 0) := by
  constructor
  · intro env total h
    unfold sendVideosToSkillTriks
    rw [List.range_eq_range',
      uploadNextAux_ok env total 0 [] 0 (fun t _ ht2 => h t (by omega))]
  · intro responseOk
    cases responseOk <;> rfl

theorem claim_C9_records_ready_signal_witness :
    (sendVideosToSkillTriks allOkEnv 2).eventsEmitted = 1 :=
  claim_C9_records_ready_signal.1 allOkEnv 2 (fun _ _ => ⟨rfl, rfl, rfl, rfl⟩)

/-! ### Duration classification lemmas -/

lemma jsAdd_none_left (x : Option ℚ) : jsAdd none x = none := rfl

lemma jsAdd_none_right (x : Option ℚ) : jsAdd x none = none := by
  cases x <;> rfl

/-- **C5 counterexample.** The string "ab:cd" is unparseable, yet the
    utility does not return `{ duration: 0 }`: it splits into two fields,
    `Number` yields NaN for both, and the NaN total propagates into the
    result (`none` in this model), contradicting the claim that every
    unparseable input yields `{ value: 0, unit: minute }`. -/
theorem claim_C5_counterexample :
    calculateLessonTimeDuration "ab:cd" = ⟨none, "minute"⟩ ∧
    (⟨none, "minute"⟩ : LessonDuration) ≠ ⟨some 0, "minute"⟩ := by
  constructor
  · rfl
  · intro h
    exact Option.noConfusion (congrArg LessonDuration.duration h)

/-- **C5 (amended).** The utility parses HH:MM:SS / MM:SS into total
    seconds and classifies `≥ 3600` as `{floor(sec/3600), hour}` and
    otherwise `{ceil(sec/60), minute}` — so "01:30" gives {2, minute},
    "59:59" gives {60, minute}, "1:00:00" gives {1, hour}; a string that
    does not split into exactly 2 or 3 colon-separated fields returns
    {0, minute}; but a 2- or 3-field string with an unparseable field
    propagates NaN: the result is {NaN, minute}, not {0, minute}. -/
theorem claim_C5_duration_classification :
    calculateLessonTimeDuration "01:30" = ⟨some 2, "minute"⟩ ∧
    calculateLessonTimeDuration "59:59" = ⟨some 60, "minute"⟩ ∧
    calculateLessonTimeDuration "1:00:00" = ⟨some 1, "hour"⟩ ∧
    (∀ s : String, (splitOnChar ':' s.data).length ≠ 2 →
        (splitOnChar ':' s.data).length ≠ 3 →
        calculateLessonTimeDuration s = ⟨some 0, "minute"⟩) ∧
    (∀ s : String,
        (splitOnChar ':' s.data).length = 2 ∨ (splitOnChar ':' s.data).length = 3 →
        (∃ f ∈ splitOnChar ':' s.data, jsNumber f = none) →
        calculateLessonTimeDuration s = ⟨none, "minute"⟩) := by
  refine ⟨?_, ?_, ?_, ?_, ?_⟩
  · have hp : (splitOnChar ':' "01:30".data).map jsNumber = [some 1, some 30] := by
      decide
    simp only [calculateLessonTimeDuration, hp]
    norm_num [jsAdd, jsMulConst, classifyTotal]
    rw [show (⌈(3 : ℚ) / 2⌉ : Int) = 2 from by rw [Int.ceil_eq_iff]; norm_num]
    norm_num
  · have hp : (splitOnChar ':' "59:59".data).map jsNumber = [some 59, some 59] := by
      decide
    simp only [calculateLessonTimeDuration, hp]
    norm_num [jsAdd, jsMulConst, classifyTotal]
    rw [show (⌈(3599 : ℚ) / 60⌉ : Int) = 60 from by rw [Int.ceil_eq_iff]; norm_num]
    norm_num
  · have hp : (splitOnChar ':' "1:00:00".data).map jsNumber = [some 1, some 0, some 0] := by
      decide
    simp only [calculateLessonTimeDuration, hp]
    norm_num [jsAdd, jsMulConst, classifyTotal]
  · intro s h2 h3
    cases hp : (splitOnChar ':' s.data).map jsNumber with
    | nil => simp only [calculateLessonTimeDuration, hp]
    | cons a t =>
      cases t with
      | nil => simp only [calculateLessonTimeDuration, hp]
      | cons b t2 =>
        cases t2 with
        | nil =>
          have := congrArg List.length hp
          simp only [List.length_map, List.length_cons, List.length_nil] at this
          exact absurd this h2
        | cons c t3 =>
          cases t3 with
          | nil =>
            have := congrArg List.length hp
            simp only [List.length_map, List.length_cons, List.length_nil] at this
            exact absurd this h3
          | cons d t4 => simp only [calculateLessonTimeDuration, hp]
  · intro s hlen hex
    obtain ⟨f, hf, hfn⟩ := hex
    have hmem : (none : Option ℚ) ∈ (splitOnChar ':' s.data).map jsNumber :=
      hfn ▸ List.mem_map_of_mem jsNumber hf
    rcases hlen with hlen | hlen
    · obtain ⟨a, b, hab⟩ := List.length_eq_two.mp
        (show ((splitOnChar ':' s.data).map jsNumber).length = 2 by simp [hlen])
      rw [hab] at hmem
      simp only [List.mem_cons, List.not_mem_nil, or_false] at hmem
      simp only [calculateLessonTimeDuration, hab]
      rcases hmem with h | h
      · rw [← h]; rfl
      · rw [← h, jsAdd_none_right, classifyTotal]
    · obtain ⟨a, b, c, habc⟩ := List.length_eq_three.mp
        (show ((splitOnChar ':' s.data).map jsNumber).length = 3 by simp [hlen])
      rw [habc] at hmem
      simp only [List.mem_cons, List.not_mem_nil, or_false] at hmem
      simp only [calculateLessonTimeDuration, habc]
      rcases hmem with h | h | h
      · rw [← h]; rfl
      · rw [← h]
        cases a <;> rfl
      · rw [← h, jsAdd_none_right, classifyTotal]

theorem claim_C5_duration_classification_witness :
    calculateLessonTimeDuration "1:2:3:4" = ⟨some 0, "minute"⟩ :=
  claim_C5_duration_classification.2.2.2.1 "1:2:3:4" (by decide) (by decide)

end VideoTrimmer
